import Mathlib

/-!
Verification of the dataset-construction and training-script logic of
`src/model/training.py` (object-detection training pipeline).

The relevant Python functions are shallowly embedded as Lean definitions:

* `parse_filenames_and_bboxes_from_json` (source lines 35-70): the JSON-lines
  parser, modelled over an abstract list of input lines. A line is either
  well formed (it parsed as JSON and carries the `image_path` and
  `bounding_box_annotations` keys) or malformed, in which case the Python code
  raises an uncaught exception; the embedding returns `Except`.
* `save_labels` (source lines 323-328): label-file persistence, modelled as the
  string content written to the file; the empty-vocabulary `IndexError` of
  `labels[-1]` is modelled as `Except.error` carrying the content written
  before the failure.
* the `EPOCHS` expression of the `__main__` block (source line 415), including
  the Python truthiness semantics of `num_epochs is None or 0`.
* the split-size arithmetic of `create_dataset_detection` (source lines
  207-212), with Python float arithmetic idealised as exact rationals and
  Python `int()` truncation embedded as `pyInt`.
* the batch-size clamping of `create_dataset_detection` (source lines
  218-228), together with a model `batch_sizes` of the library batching
  operation `dense_to_ragged_batch`.
* the stage structure of the three dataset pipelines built by
  `create_dataset_detection` (source lines 179-277), as lists of stage tags.
-/

namespace DetectionTraining

/-- One bounding-box annotation of a well-formed JSON line: the source reads
the keys `annotation_label`, `y_min_normalized`, `x_min_normalized`,
`y_max_normalized`, `x_max_normalized` (source lines 57-66). -/
structure Annotation where
  annotation_label : String
  y_min_normalized : ℚ
  x_min_normalized : ℚ
  y_max_normalized : ℚ
  x_max_normalized : ℚ
  deriving DecidableEq, Repr

/-- A well-formed JSON line: keys `image_path` and `bounding_box_annotations`
(source lines 52-53). -/
structure JsonLine where
  image_path : String
  bounding_box_annotations : List Annotation
  deriving DecidableEq, Repr

/-- The ways a line can be malformed: `json.loads` fails (invalid JSON), or a
key lookup fails (source lines 51-53). Each raises an uncaught Python
exception. -/
inductive ParseErr where
  | invalidJson
  | missingImagePath
  | missingAnnotations
  deriving DecidableEq, Repr

/-- A raw input line: either malformed (raising `ParseErr` when processed) or
well formed. -/
inductive RawLine where
  | malformed (e : ParseErr)
  | wellFormed (line : JsonLine)
  deriving DecidableEq, Repr

/-- Whether processing this raw line raises an exception. -/
def RawLine.isMalformed : RawLine → Bool
  | .malformed _ => true
  | .wellFormed _ => false

/-- The coordinate list stored for one retained annotation, in the order the
source appends them: `[y_min_normalized, x_min_normalized, y_max_normalized,
x_max_normalized]` (source lines 60-67, `rel_yxyx` format). -/
def coordsOf (a : Annotation) : List ℚ :=
  [a.y_min_normalized, a.x_min_normalized, a.y_max_normalized, a.x_max_normalized]

/-- The labels retained for one line: the inner loop keeps an annotation
exactly when `annotation["annotation_label"] in all_labels` (source lines
56-58). -/
def retainedLabels (all_labels : List String) (line : JsonLine) : List String :=
  (line.bounding_box_annotations.filter
    fun a => a.annotation_label ∈ all_labels).map fun a => a.annotation_label

/-- The coordinate lists retained for one line, aligned with `retainedLabels`
(source lines 56-67). -/
def retainedCoords (all_labels : List String) (line : JsonLine) : List (List ℚ) :=
  (line.bounding_box_annotations.filter
    fun a => a.annotation_label ∈ all_labels).map coordsOf

/-- Embedding of `parse_filenames_and_bboxes_from_json` (source lines 35-70):
iterate over the lines of the file in order; a malformed line raises (the
whole call fails and returns nothing); a well-formed line appends its image
path and its vocabulary-filtered labels and coordinates to the three output
lists. -/
def parse_filenames_and_bboxes_from_json (lines : List RawLine)
    (all_labels : List String) :
    Except ParseErr (List String × List (List String) × List (List (List ℚ))) :=
  match lines with
  | [] => .ok ([], [], [])
  | .malformed e :: _ => .error e
  | .wellFormed line :: rest =>
    match parse_filenames_and_bboxes_from_json rest all_labels with
    | .error e => .error e
    | .ok (fs, ls, cs) =>
      .ok (line.image_path :: fs,
           retainedLabels all_labels line :: ls,
           retainedCoords all_labels line :: cs)

/-- Embedding of `save_labels` (source lines 323-328) as the file content it
produces. The Python loop writes `label + "\n"` for every label but the last
(`labels[:-1]`), then writes `labels[-1]` with no newline. On an empty
vocabulary `labels[-1]` raises `IndexError` after the file was opened in `"w"`
mode (truncated); the error carries the content written before the failure. -/
def save_labels (labels : List String) : Except String String :=
  let written := labels.dropLast.foldl (fun acc label => acc ++ label ++ "\n") ""
  match labels.getLast? with
  | none => .error written
  | some last => .ok (written ++ last)

/-- Modelled from the spec: the label-file content the spec describes, the
labels in vocabulary order separated by single newline characters, with no
trailing newline after the final label. -/
def specLabelFileContent : List String → String
  | [] => ""
  | [l] => l
  | l :: ls => l ++ "\n" ++ specLabelFileContent ls

/-- Python truthiness of an integer: `0` is falsy, everything else truthy. -/
def intTruthy (n : ℤ) : Bool := n ≠ 0

/-- The condition of source line 415, `num_epochs is None or 0`, with Python
operator semantics: `or` binds looser than `is`, so this is
`(num_epochs is None) or 0`, truthy iff `num_epochs is None` (the literal `0`
operand is always falsy). -/
def epochsCond (num_epochs : Option ℤ) : Bool :=
  num_epochs.isNone || intTruthy 0

/-- Embedding of source line 415:
`EPOCHS = 200 if num_epochs is None or 0 else int(num_epochs)`. When the
condition is falsy, `num_epochs` is not `None`, and `int(num_epochs)` is its
value. -/
def EPOCHS (num_epochs : Option ℤ) : ℤ :=
  if epochsCond num_epochs then 200 else num_epochs.getD 0

/-- Python `int()` applied to an exact rational: truncation toward zero. -/
def pyInt (q : ℚ) : ℤ := if 0 ≤ q then ⌊q⌋ else -⌊-q⌋

/-- `train_size = int(train_split * len(filenames))` (source line 207). -/
def train_size (train_split : ℚ) (N : ℕ) : ℤ := pyInt (train_split * N)

/-- `val_size = int((1 - train_split) * 0.5 * len(filenames))` (source line
208). -/
def val_size (train_split : ℚ) (N : ℕ) : ℤ :=
  pyInt ((1 - train_split) * (1 / 2) * N)

/-- `test_size = len(filenames) - train_size - val_size` (source line 209). -/
def test_size (train_split : ℚ) (N : ℕ) : ℤ :=
  N - train_size train_split N - val_size train_split N

/-- The batch-size clamp of source lines 218, 222, 226:
`batch_size if batch_size < partition_size else partition_size`. -/
def effective_batch_size (batch_size partition_size : ℕ) : ℕ :=
  if batch_size < partition_size then batch_size else partition_size

/-- Model of the library batching stage `dense_to_ragged_batch(b)` applied to
a partition of `P` records: the list of batch sizes produced, in order. Each
step emits a full batch of `b` records, or the remaining records if fewer than
`b` are left; with `b = 0` or an exhausted partition no further batch is
produced. -/
def batch_sizes (b : ℕ) (P : ℕ) : List ℕ :=
  if h : 0 < b ∧ 0 < P then min b P :: batch_sizes b (P - b) else []
termination_by P
decreasing_by exact Nat.sub_lt h.2 h.1

/-- The per-record map stages applied in `create_dataset_detection`, in source
order: the decode/resize/encode/convert preprocessing (`mapping_fnc`, line
199), the deterministic `inference_resizing` (lines 236-241), the train
augmentations `random_flip` and `jittered_resize` (lines 256-258), and the
tuple conversion `conversion_wrapper` (lines 263-271). -/
inductive MapFn where
  | preprocess
  | inferenceResizing
  | randomFlip
  | jitteredResize
  | convertToTuple
  deriving DecidableEq, Repr

/-- A stage of a dataset pipeline as built in `create_dataset_detection`
(source lines 179-277). -/
inductive Stage where
  | fromTensorSlices
  | map (f : MapFn)
  | shuffle
  | take
  | skip
  | denseToRaggedBatch
  | prefetch
  deriving DecidableEq, Repr

/-- The stage structure of the three pipelines returned by
`create_dataset_detection` (source lines 179-277), in source order:
the shared base is `from_tensor_slices`, the preprocessing `map`, and the
non-reshuffled `shuffle`; then
train = `take`, batch, `random_flip` map, `jittered_resize` map, tuple map,
prefetch (lines 210, 219-221, 256-265, 274);
validation = `skip`+`take`, batch, resizing map, tuple map, prefetch
(lines 211, 223-225, 236-238, 266-268, 275);
test = `skip`, batch, resizing map, tuple map, and no prefetch
(lines 212, 227-229, 239-241, 269-271, 277). -/
def create_dataset_detection_pipelines :
    List Stage × List Stage × List Stage :=
  let base : List Stage :=
    [Stage.fromTensorSlices, Stage.map MapFn.preprocess, Stage.shuffle]
  let train := base ++
    [Stage.take, Stage.denseToRaggedBatch, Stage.map MapFn.randomFlip,
     Stage.map MapFn.jitteredResize, Stage.map MapFn.convertToTuple,
     Stage.prefetch]
  let val := base ++
    [Stage.skip, Stage.take, Stage.denseToRaggedBatch,
     Stage.map MapFn.inferenceResizing, Stage.map MapFn.convertToTuple,
     Stage.prefetch]
  let test := base ++
    [Stage.skip, Stage.denseToRaggedBatch, Stage.map MapFn.inferenceResizing,
     Stage.map MapFn.convertToTuple]
  (train, val, test)

/-! ### Concrete sample inputs used by the witnesses -/

/-- A sample in-vocabulary annotation. -/
def annA1 : Annotation :=
  { annotation_label := "blue_star", y_min_normalized := 1 / 10,
    x_min_normalized := 2 / 10, y_max_normalized := 3 / 10,
    x_max_normalized := 4 / 10 }

/-- A sample out-of-vocabulary annotation. -/
def annA2 : Annotation :=
  { annotation_label := "red_circle", y_min_normalized := 5 / 10,
    x_min_normalized := 6 / 10, y_max_normalized := 7 / 10,
    x_max_normalized := 8 / 10 }

/-- A sample line with one in-vocabulary and one out-of-vocabulary
annotation. -/
def lineA : JsonLine :=
  { image_path := "a.jpg", bounding_box_annotations := [annA1, annA2] }

/-- A sample line with no in-vocabulary annotation. -/
def lineB : JsonLine :=
  { image_path := "b.jpg", bounding_box_annotations := [annA2] }

/-! ### Helper lemmas -/

/-- Folding the label-writing loop from an arbitrary accumulator prepends the
accumulator. -/
theorem foldl_write_append (xs : List String) (init : String) :
    xs.foldl (fun acc label => acc ++ label ++ "\n") init =
      init ++ xs.foldl (fun acc label => acc ++ label ++ "\n") "" := by
  induction xs generalizing init with
  | nil => simp
  | cons x xs ih =>
    simp only [List.foldl_cons]
    rw [ih (init ++ x ++ "\n"), ih ("" ++ x ++ "\n")]
    simp [String.append_assoc]

/-- `save_labels` on a non-empty vocabulary produces exactly the
newline-separated content with no trailing newline. -/
theorem save_labels_eq_spec (l : String) (ls : List String) :
    save_labels (l :: ls) = .ok (specLabelFileContent (l :: ls)) := by
  induction ls generalizing l with
  | nil => simp [save_labels, specLabelFileContent]
  | cons m ms ih =>
    have hrec := ih m
    simp only [save_labels, List.dropLast_cons₂, List.foldl_cons,
      List.getLast?_cons_cons] at hrec ⊢
    rw [foldl_write_append]
    rw [foldl_write_append] at hrec
    simp only [String.empty_append] at hrec ⊢
    cases hlast : (m :: ms).getLast? with
    | none => simp [List.getLast?_eq_none_iff] at hlast
    | some last =>
      rw [hlast] at hrec
      simp only [Except.ok.injEq] at hrec
      show Except.ok (l ++ "\n" ++
        (m :: ms).dropLast.foldl (fun acc label => acc ++ label ++ "\n") "" ++
          last) = Except.ok (specLabelFileContent (l :: m :: ms))
      rw [String.append_assoc, hrec]
      rfl

/-- Characterisation of the parser on a list of well-formed lines: it succeeds
and returns the three index-aligned lists. -/
theorem parse_wellFormed_eq (lines : List JsonLine) (all_labels : List String) :
    parse_filenames_and_bboxes_from_json (lines.map RawLine.wellFormed)
        all_labels =
      .ok (lines.map JsonLine.image_path,
           lines.map (retainedLabels all_labels),
           lines.map (retainedCoords all_labels)) := by
  induction lines with
  | nil => rfl
  | cons line rest ih =>
    simp only [List.map_cons, parse_filenames_and_bboxes_from_json, ih]

/-- `batch_sizes` with a positive batch size: every batch is non-empty and no
larger than `b`, and the batch sizes sum to the partition size. -/
theorem batch_sizes_spec (b : ℕ) (hb : 0 < b) :
    ∀ P, (∀ s ∈ batch_sizes b P, 0 < s ∧ s ≤ b) ∧
      (batch_sizes b P).sum = P := by
  intro P
  induction P using Nat.strong_induction_on with
  | _ P ih =>
    rw [batch_sizes]
    by_cases hP : 0 < P
    · rw [dif_pos ⟨hb, hP⟩]
      have hlt : P - b < P := Nat.sub_lt hP hb
      obtain ⟨ihmem, ihsum⟩ := ih (P - b) hlt
      constructor
      · intro s hs
        rcases List.mem_cons.mp hs with h | h
        · subst h
          exact ⟨lt_min hb hP, min_le_left _ _⟩
        · exact ihmem s h
      · simp only [List.sum_cons, ihsum]
        omega
    · rw [dif_neg (by omega)]
      simp
      omega

/-- A filtered record keeps nothing when no annotation label is in the
vocabulary. -/
theorem retained_nil_of_no_match (all_labels : List String) (line : JsonLine)
    (hnone : ∀ a ∈ line.bounding_box_annotations,
      a.annotation_label ∉ all_labels) :
    retainedLabels all_labels line = [] ∧
      retainedCoords all_labels line = [] := by
  have hfilter : line.bounding_box_annotations.filter
      (fun a => a.annotation_label ∈ all_labels) = [] := by
    rw [List.filter_eq_nil_iff]
    intro a ha
    simpa using hnone a ha
  rw [retainedLabels, retainedCoords, hfilter]
  exact ⟨rfl, rfl⟩

/-! ### The claims -/

/-- C3: the spec claims the epoch count defaults to 200 when the override is
absent or equal to zero. The code of source line 415, `200 if num_epochs is
None or 0 else int(num_epochs)`, parses as `(num_epochs is None) or 0`; the
`0` operand is always falsy, so the default applies only when the override is
absent, and an override of zero yields an epoch count of zero, not 200. This
theorem evaluates the embedded expression: `EPOCHS (some 0) = 0` (the failing
input), `EPOCHS none = 200`, and every present override is used verbatim. -/
theorem epochs_zero_override_not_defaulted :
    EPOCHS (some 0) = 0 ∧ EPOCHS none = 200 ∧ ∀ n : ℤ, EPOCHS (some n) = n := by
  refine ⟨rfl, rfl, fun n => ?_⟩
  simp [EPOCHS, epochsCond, intTruthy]

/-- C7: for every non-empty label vocabulary, `save_labels` writes exactly the
labels in vocabulary order separated by single newline characters with no
trailing newline; in particular the vocabulary
`["orange_triangle", "blue_star"]` yields exactly the first label, a single
newline character, and the second label. -/
theorem save_labels_newline_separated_no_trailing :
    (∀ (l : String) (ls : List String),
      save_labels (l :: ls) = .ok (specLabelFileContent (l :: ls))) ∧
    save_labels ["orange_triangle", "blue_star"] =
      .ok ("orange_triangle" ++ "\n" ++ "blue_star") := by
  exact ⟨fun l ls => save_labels_eq_spec l ls, rfl⟩

/-- C10: `save_labels` on the empty vocabulary fails (the `labels[-1]` access
raises `IndexError`) with nothing yet written to the already-truncated file
(the error carries the content written before the failure, here `""`), and it
succeeds exactly on non-empty vocabularies. -/
theorem save_labels_empty_vocab_fails :
    save_labels ([] : List String) = .error "" ∧
    ∀ (l : String) (ls : List String), ∃ s, save_labels (l :: ls) = .ok s := by
  exact ⟨rfl, fun l ls => ⟨_, save_labels_eq_spec l ls⟩⟩

/-- C8 counterexample: the claim says every one of the three partitions is
wrapped with a prefetch stage as the final step of dataset construction, but
the test pipeline built by `create_dataset_detection` (source lines 273-277)
does not end in a prefetch stage. -/
theorem test_pipeline_not_prefetched :
    ¬ create_dataset_detection_pipelines.2.2.getLast? = some Stage.prefetch := by
  decide

/-- C8 amended: the train and validation pipelines end in a prefetch stage;
the test pipeline ends in the tuple-conversion map and contains no prefetch
stage at all. -/
theorem train_val_prefetched_test_not :
    create_dataset_detection_pipelines.1.getLast? = some Stage.prefetch ∧
    create_dataset_detection_pipelines.2.1.getLast? = some Stage.prefetch ∧
    create_dataset_detection_pipelines.2.2.getLast? =
      some (Stage.map MapFn.convertToTuple) ∧
    Stage.prefetch ∉ create_dataset_detection_pipelines.2.2 := by
  decide

/-- C2: for each partition independently, the effective batch size equals
`min(B, P)`; with positive `B` and `P`, every batch produced within the
partition is non-empty and no larger than `min(B, P)`, and the batch sizes
sum to `P`. -/
theorem batch_size_clamping (B P : ℕ) (hB : 0 < B) (hP : 0 < P) :
    effective_batch_size B P = min B P ∧
    (∀ s ∈ batch_sizes (effective_batch_size B P) P, 0 < s ∧ s ≤ min B P) ∧
    (batch_sizes (effective_batch_size B P) P).sum = P := by
  have he : effective_batch_size B P = min B P := by
    unfold effective_batch_size
    split <;> omega
  have hpos : 0 < min B P := lt_min hB hP
  obtain ⟨hmem, hsum⟩ := batch_sizes_spec (min B P) hpos P
  rw [he]
  exact ⟨rfl, hmem, hsum⟩

/-- C2 witness: a partition of size 3 with configured batch size 64 has
effective batch size 3 and yields exactly one batch, of size 3. -/
theorem batch_size_clamping_witness :
    ((0 < 64 ∧ 0 < 3) ∧
      (effective_batch_size 64 3 = min 64 3 ∧
       (∀ s ∈ batch_sizes (effective_batch_size 64 3) 3, 0 < s ∧ s ≤ min 64 3) ∧
       (batch_sizes (effective_batch_size 64 3) 3).sum = 3)) ∧
    batch_sizes (effective_batch_size 64 3) 3 = [3] := by
  have heff : effective_batch_size 64 3 = 3 := by decide
  have h0 : batch_sizes 3 0 = [] := by rw [batch_sizes]; simp
  have h3 : batch_sizes 3 3 = [3] := by rw [batch_sizes]; simp [h0]
  exact ⟨⟨⟨by decide, by decide⟩, batch_size_clamping 64 3 (by decide) (by decide)⟩,
    by rw [heff, h3]⟩

/-- C9: an input containing a malformed line (invalid JSON or a missing
`image_path` or `bounding_box_annotations` key) makes the parser fail with an
error and produce no output sequences. -/
theorem malformed_line_is_fatal (lines : List RawLine) (all_labels : List String)
    (h : ∃ r ∈ lines, r.isMalformed = true) :
    ∃ e, parse_filenames_and_bboxes_from_json lines all_labels = .error e := by
  induction lines with
  | nil => simp at h
  | cons r rest ih =>
    cases r with
    | malformed e => exact ⟨e, rfl⟩
    | wellFormed line =>
      have hrest : ∃ r ∈ rest, r.isMalformed = true := by
        rcases h with ⟨r, hr, hm⟩
        rcases List.mem_cons.mp hr with h1 | h1
        · subst h1; simp [RawLine.isMalformed] at hm
        · exact ⟨r, h1, hm⟩
      obtain ⟨e, he⟩ := ih hrest
      refine ⟨e, ?_⟩
      simp only [parse_filenames_and_bboxes_from_json, he]

/-- C9 witness: a concrete file with a well-formed first line and an
invalid-JSON second line makes the parser return an error. -/
theorem malformed_line_is_fatal_witness :
    (∃ r ∈ [RawLine.wellFormed lineB, RawLine.malformed ParseErr.invalidJson],
      r.isMalformed = true) ∧
    ∃ e, parse_filenames_and_bboxes_from_json
        [RawLine.wellFormed lineB, RawLine.malformed ParseErr.invalidJson]
        ["orange_triangle", "blue_star"] = .error e := by
  refine ⟨?_, malformed_line_is_fatal _ _ ?_⟩ <;>
    exact ⟨RawLine.malformed ParseErr.invalidJson, by simp, rfl⟩

/-- C4: on a well-formed input file the parser succeeds and returns three
index-aligned sequences with exactly one entry per input line (the image path
of line `i` aligns with the retained labels and boxes of line `i`), and a
line with zero vocabulary matches still contributes an entry with empty label
and box lists. -/
theorem parser_output_index_aligned (lines : List JsonLine)
    (all_labels : List String) :
    (parse_filenames_and_bboxes_from_json (lines.map RawLine.wellFormed)
        all_labels =
      .ok (lines.map JsonLine.image_path,
           lines.map (retainedLabels all_labels),
           lines.map (retainedCoords all_labels))) ∧
    (lines.map JsonLine.image_path).length = lines.length ∧
    (lines.map (retainedLabels all_labels)).length = lines.length ∧
    (lines.map (retainedCoords all_labels)).length = lines.length ∧
    ∀ line ∈ lines,
      (∀ a ∈ line.bounding_box_annotations, a.annotation_label ∉ all_labels) →
        retainedLabels all_labels line = [] ∧
        retainedCoords all_labels line = [] := by
  exact ⟨parse_wellFormed_eq lines all_labels, by simp, by simp, by simp,
    fun line _ hnone => retained_nil_of_no_match all_labels line hnone⟩

/-- C4 witness: a concrete two-line file; the second line has no vocabulary
match and still contributes an entry with empty lists. -/
theorem parser_output_index_aligned_witness :
    (parse_filenames_and_bboxes_from_json
        ([lineA, lineB].map RawLine.wellFormed) ["orange_triangle", "blue_star"] =
      .ok ([lineA, lineB].map JsonLine.image_path,
           [lineA, lineB].map (retainedLabels ["orange_triangle", "blue_star"]),
           [lineA, lineB].map (retainedCoords ["orange_triangle", "blue_star"]))) ∧
    (retainedLabels ["orange_triangle", "blue_star"] lineB = [] ∧
     retainedCoords ["orange_triangle", "blue_star"] lineB = []) := by
  have h := parser_output_index_aligned [lineA, lineB]
    ["orange_triangle", "blue_star"]
  have hmem : lineB ∈ [lineA, lineB] :=
    List.mem_cons_of_mem _ (List.mem_cons_self _ _)
  have hnone : ∀ a ∈ lineB.bounding_box_annotations,
      a.annotation_label ∉ ["orange_triangle", "blue_star"] := by
    intro a ha
    have hproj : lineB.bounding_box_annotations = [annA2] := rfl
    rw [hproj, List.mem_singleton] at ha
    subst ha
    show annA2.annotation_label ∉ ["orange_triangle", "blue_star"]
    have hlab : annA2.annotation_label = "red_circle" := rfl
    rw [hlab]
    decide
  exact ⟨h.1, h.2.2.2.2 lineB hmem hnone⟩

/-- C5: an annotation of a line is retained in the parser output for that
line (its label paired with its coordinate list occurs among the zipped
retained labels and boxes) if and only if its label is a member of the
configured label vocabulary. -/
theorem annotation_retained_iff (line : JsonLine) (all_labels : List String)
    (a : Annotation ) (ha : a ∈ line.bounding_box_annotations) :
    ((a.annotation_label, coordsOf a) ∈
        (retainedLabels all_labels line).zip (retainedCoords all_labels line)) ↔
      a.annotation_label ∈ all_labels := by
  unfold retainedLabels retainedCoords
  rw [List.zip_map']
  constructor
  · intro hmem
    obtain ⟨b, hb, heq⟩ := List.mem_map.mp hmem
    have hbv : b.annotation_label ∈ all_labels := by
      simpa using (List.mem_filter.mp hb).2
    have hlab : b.annotation_label = a.annotation_label :=
      (Prod.mk.injEq _ _ _ _ ▸ heq).1
    rwa [hlab] at hbv
  · intro hv
    exact List.mem_map.mpr
      ⟨a, List.mem_filter.mpr ⟨ha, by simpa using hv⟩, rfl⟩

/-- C5 witness: in the sample line, the in-vocabulary annotation is retained
and the out-of-vocabulary one is dropped. -/
theorem annotation_retained_iff_witness :
    (((annA1.annotation_label, coordsOf annA1) ∈
        (retainedLabels ["orange_triangle", "blue_star"] lineA).zip
          (retainedCoords ["orange_triangle", "blue_star"] lineA)) ↔
      annA1.annotation_label ∈ ["orange_triangle", "blue_star"]) ∧
    (((annA2.annotation_label, coordsOf annA2) ∈
        (retainedLabels ["orange_triangle", "blue_star"] lineA).zip
          (retainedCoords ["orange_triangle", "blue_star"] lineA)) ↔
      annA2.annotation_label ∈ ["orange_triangle", "blue_star"]) :=
  ⟨annotation_retained_iff lineA ["orange_triangle", "blue_star"] annA1
      (List.mem_cons_self _ _),
   annotation_retained_iff lineA ["orange_triangle", "blue_star"] annA2
      (List.mem_cons_of_mem _ (List.mem_cons_self _ _))⟩

/-- C6: for every record, the number of retained labels equals the number of
retained coordinate lists, and every retained box is a 4-element coordinate
list in the order y_min, x_min, y_max, x_max, coming from a retained
(in-vocabulary) annotation of the record. -/
theorem retained_labels_boxes_aligned (line : JsonLine)
    (all_labels : List String) :
    (retainedLabels all_labels line).length =
      (retainedCoords all_labels line).length ∧
    ∀ c ∈ retainedCoords all_labels line,
      c.length = 4 ∧
      ∃ a ∈ line.bounding_box_annotations,
        a.annotation_label ∈ all_labels ∧
        c = [a.y_min_normalized, a.x_min_normalized,
             a.y_max_normalized, a.x_max_normalized] := by
  constructor
  · simp [retainedLabels, retainedCoords]
  · intro c hc
    obtain ⟨a, haf, heq⟩ := List.mem_map.mp hc
    subst heq
    have h2 := List.mem_filter.mp haf
    exact ⟨rfl, a, h2.1, by simpa using h2.2, rfl⟩

/-- C6 witness: the invariant holds on the sample line, instantiated at the
coordinate list of its retained annotation. -/
theorem retained_labels_boxes_aligned_witness :
    (retainedLabels ["orange_triangle", "blue_star"] lineA).length =
      (retainedCoords ["orange_triangle", "blue_star"] lineA).length ∧
    ((coordsOf annA1).length = 4 ∧
      ∃ a ∈ lineA.bounding_box_annotations,
        a.annotation_label ∈ ["orange_triangle", "blue_star"] ∧
        coordsOf annA1 = [a.y_min_normalized, a.x_min_normalized,
          a.y_max_normalized, a.x_max_normalized]) := by
  have h := retained_labels_boxes_aligned lineA ["orange_triangle", "blue_star"]
  have hret : retainedCoords ["orange_triangle", "blue_star"] lineA =
      [coordsOf annA1] := rfl
  exact ⟨h.1, h.2 (coordsOf annA1) (by rw [hret]; exact List.mem_cons_self _ _)⟩

/-- C1: for every record count N and train_split strictly between 0 and 1
(exact rational arithmetic), the split sizes of source lines 207-209 are the
claimed floors, all non-negative, and sum to N; the three contiguous
post-shuffle index ranges are pairwise disjoint and cover every index exactly
once, the take/skip partition of source lines 210-212 reassembles any list of
length-independent records, and N = 0 yields three empty partitions. -/
theorem dataset_split_partition (s : ℚ) (N : ℕ) (h0 : 0 < s) (h1 : s < 1) :
    train_size s N = ⌊s * (N : ℚ)⌋ ∧
    val_size s N = ⌊(1 - s) * (1 / 2) * (N : ℚ)⌋ ∧
    0 ≤ train_size s N ∧ 0 ≤ val_size s N ∧ 0 ≤ test_size s N ∧
    train_size s N + val_size s N + test_size s N = N ∧
    (train_size s N).toNat + (val_size s N).toNat ≤ N ∧
    (Disjoint (Finset.Ico 0 (train_size s N).toNat)
      (Finset.Ico (train_size s N).toNat
        ((train_size s N).toNat + (val_size s N).toNat)) ∧
     Disjoint (Finset.Ico (train_size s N).toNat
        ((train_size s N).toNat + (val_size s N).toNat))
      (Finset.Ico ((train_size s N).toNat + (val_size s N).toNat) N) ∧
     Disjoint (Finset.Ico 0 (train_size s N).toNat)
      (Finset.Ico ((train_size s N).toNat + (val_size s N).toNat) N)) ∧
    (Finset.Ico 0 (train_size s N).toNat ∪
      Finset.Ico (train_size s N).toNat
        ((train_size s N).toNat + (val_size s N).toNat) ∪
      Finset.Ico ((train_size s N).toNat + (val_size s N).toNat) N =
      Finset.Ico 0 N) ∧
    (∀ l : List ℕ, l.take (train_size s N).toNat ++
        ((l.drop (train_size s N).toNat).take (val_size s N).toNat ++
          l.drop ((val_size s N).toNat + (train_size s N).toNat)) = l) ∧
    (N = 0 → train_size s N = 0 ∧ val_size s N = 0 ∧ test_size s N = 0) := by
  have hN : (0 : ℚ) ≤ N := Nat.cast_nonneg N
  have ha : (0 : ℚ) ≤ s * N := mul_nonneg h0.le hN
  have hb : (0 : ℚ) ≤ (1 - s) * (1 / 2) * N :=
    mul_nonneg (mul_nonneg (by linarith) (by norm_num)) hN
  have htr : train_size s N = ⌊s * (N : ℚ)⌋ := by
    rw [train_size, pyInt, if_pos ha]
  have hvl : val_size s N = ⌊(1 - s) * (1 / 2) * (N : ℚ)⌋ := by
    rw [val_size, pyInt, if_pos hb]
  have htr0 : 0 ≤ train_size s N := htr ▸ Int.floor_nonneg.mpr ha
  have hvl0 : 0 ≤ val_size s N := hvl ▸ Int.floor_nonneg.mpr hb
  have hsumle : train_size s N + val_size s N ≤ N := by
    rw [htr, hvl]
    have h3 : s * (N : ℚ) + (1 - s) * (1 / 2) * N ≤ N := by
      nlinarith [mul_nonneg (sub_nonneg.mpr h1.le) hN]
    have h4 : (⌊s * (N : ℚ)⌋ : ℚ) + ⌊(1 - s) * (1 / 2) * (N : ℚ)⌋ ≤ (N : ℚ) := by
      have hf1 := Int.floor_le (s * (N : ℚ))
      have hf2 := Int.floor_le ((1 - s) * (1 / 2) * (N : ℚ))
      linarith
    exact_mod_cast h4
  have hts0 : 0 ≤ test_size s N := by
    rw [test_size]; omega
  have hsum : train_size s N + val_size s N + test_size s N = N := by
    rw [test_size]; ring
  have htv : (train_size s N).toNat + (val_size s N).toNat ≤ N := by omega
  refine ⟨htr, hvl, htr0, hvl0, hts0, hsum, htv, ⟨?_, ?_, ?_⟩, ?_, ?_, ?_⟩
  · exact Finset.Ico_disjoint_Ico_consecutive 0 _ _
  · exact Finset.Ico_disjoint_Ico_consecutive _ _ _
  · rw [Finset.disjoint_left]
    intro x hx1 hx2
    simp only [Finset.mem_Ico] at hx1 hx2
    omega
  · rw [Finset.Ico_union_Ico_eq_Ico (Nat.zero_le _) (Nat.le_add_right _ _),
      Finset.Ico_union_Ico_eq_Ico (Nat.zero_le _) htv]
  · intro l
    have hdd : l.drop ((val_size s N).toNat + (train_size s N).toNat) =
        (l.drop (train_size s N).toNat).drop (val_size s N).toNat := by
      rw [List.drop_drop, Nat.add_comm]
    rw [hdd, List.take_append_drop, List.take_append_drop]
  · intro hN0
    subst hN0
    have e1 : train_size s 0 = 0 := by
      rw [htr]; norm_num
    have e2 : val_size s 0 = 0 := by
      rw [hvl]; norm_num
    exact ⟨e1, e2, by omega⟩

/-- C1 witness: with train_split 4/5 and N = 10, the sizes are 8, 1, 1 and sum
to 10. -/
theorem dataset_split_partition_witness :
    ((0 : ℚ) < 4 / 5 ∧ (4 / 5 : ℚ) < 1) ∧
    train_size (4 / 5) 10 = 8 ∧ val_size (4 / 5) 10 = 1 ∧
    test_size (4 / 5) 10 = 1 ∧
    train_size (4 / 5) 10 + val_size (4 / 5) 10 + test_size (4 / 5) 10 = 10 := by
  have h := dataset_split_partition (4 / 5) 10 (by norm_num) (by norm_num)
  have e1 : train_size (4 / 5) 10 = 8 := by
    rw [h.1, show (4 / 5 : ℚ) * ((10 : ℕ) : ℚ) = ((8 : ℤ) : ℚ) by norm_num,
      Int.floor_intCast]
  have e2 : val_size (4 / 5) 10 = 1 := by
    rw [h.2.1,
      show (1 - 4 / 5 : ℚ) * (1 / 2) * ((10 : ℕ) : ℚ) = ((1 : ℤ) : ℚ) by
        norm_num,
      Int.floor_intCast]
  have e3 : test_size (4 / 5) 10 = 1 := by
    rw [test_size, e1, e2]
    norm_num
  exact ⟨⟨by norm_num, by norm_num⟩, e1, e2, e3, h.2.2.2.2.2.1⟩

end DetectionTraining
